import Mathlib

/-!
Shallow embedding of the josefine consensus core: the wire `Command` type and
`State` (src/josefine-raft/src/raft.rs), the Candidate role and its `Apply`
implementation (src/josefine-raft/src/candidate.rs), and the FSM `Driver`
(src/josefine-raft/src/fsm.rs).  Components of the repository whose files are
not in the provided sources (election.rs, follower.rs, leader.rs, rpc.rs,
config.rs, progress.rs, log storage) are modelled from the specification and
marked as such in their doc comments.

Rust `u32`/`u64` identifiers, terms and indices are modelled as `Nat`
(overflow would panic in the source, so no wrap-around is modelled);
`Instant`/`Duration` are modelled as `Nat` time stamps passed in as `now`;
byte vectors are `List Nat`.
-/

namespace Josefine

/-- Modelled from the spec: the RPC envelope address (`rpc.rs` is not in the
provided sources); one of Local, Peer(NodeId) or Broadcast. -/
inductive Address where
  | local
  | peer (id : Nat)
  | broadcast
deriving DecidableEq, Repr

/-- Modelled from the spec: the `Response` of rpc.rs (not in the provided
sources); fsm.rs constructs `Response::State(bytes)`. -/
inductive Response where
  | state (data : List Nat)
deriving DecidableEq, Repr

mutual
/-- The `EntryType` enum of raft.rs: `Entry { data }`, `Config {}` or
`Command { command }`. -/
inductive EntryType where
  | entry (data : List Nat)
  | config
  | command (command : Command)

/-- The `Entry` struct of raft.rs: an entry in the commit log, with
`entry_type`, `term` and `index` fields. -/
inductive Entry where
  | mk (entry_type : EntryType) (term : Nat) (index : Nat)

/-- The `Command` enum of raft.rs (the commands applied to the state
machine), with the exact constructors and fields of the source, plus the
`ClientResponse` variant that fsm.rs constructs (its defining file is not in
the provided sources; its fields follow the fsm.rs call site). -/
inductive Command where
  | start
  | tick
  | addNode (addr : Nat)
  | voteRequest (term : Nat) (candidate_id : Nat) (last_term : Nat) (last_index : Nat)
  | voteResponse (term : Nat) (from_ : Nat) (granted : Bool)
  | appendEntries (term : Nat) (leader_id : Nat) (entries : List Entry)
  | appendResponse (node_id : Nat) (term : Nat) (index : Nat)
  | heartbeat (term : Nat) (leader_id : Nat)
  | timeout
  | noop
  | ping (term : Nat) (node_id : Nat)
  | clientResponse (id : List Nat) (res : Except Unit Response)
end

/-- Projection: the `entry_type` field of an `Entry`. -/
def Entry.entry_type : Entry → EntryType
  | .mk t _ _ => t

/-- Projection: the `term` field of an `Entry`. -/
def Entry.term : Entry → Nat
  | .mk _ t _ => t

/-- Projection: the `index` field of an `Entry`. -/
def Entry.index : Entry → Nat
  | .mk _ _ i => i

/-- Modelled from the spec: the RPC envelope (`rpc.rs` is not in the provided
sources): `{ from, to, command }`; fsm.rs constructs it with fields in the
order `to`, `from`, `command`. -/
structure Message where
  to_ : Address
  from_ : Address
  command : Command

/-- The `State` struct of raft.rs: volatile and persistent state common to
all roles.  `Instant` and `Duration` are modelled as `Nat`. -/
structure State where
  current_term : Nat
  voted_for : Option Nat
  commit_index : Nat
  last_applied : Nat
  election_time : Option Nat
  election_timeout : Option Nat
  min_election_timeout : Nat
  max_election_timeout : Nat
deriving Repr

/-- The `Default` impl for `State` in raft.rs. -/
def State.default : State :=
  { current_term := 0, voted_for := none, commit_index := 0, last_applied := 0
    election_time := none, election_timeout := none
    min_election_timeout := 10, max_election_timeout := 1000 }

/-- The `Node` struct of raft.rs: a known cluster member (`id`, socket
address modelled as `Nat`). -/
structure Node where
  id : Nat
  addr : Nat
deriving Repr

/-- Modelled from the spec: `RaftConfig` (config.rs is not in the provided
sources), restricted to the fields the provided code reads: the list of peer
`nodes` (excluding self) and the leader `heartbeat_timeout`. -/
structure RaftConfig where
  nodes : List Node
  heartbeat_timeout : Nat
deriving Repr

/-- Modelled from the spec: the status reported by an `Election`
(election.rs is not in the provided sources): Voting, Elected or Defeated. -/
inductive ElectionStatus where
  | voting
  | elected
  | defeated
deriving DecidableEq, Repr

/-- Modelled from the spec: the `Election` of election.rs (not in the
provided sources): constructed with a term and the set of voting peers
(including self); holds a tally of votes, at most one per peer. -/
structure Election where
  term : Nat
  peers : List Nat
  votes : List (Nat × Bool)
deriving Repr

/-- Modelled from the spec: `Election` records a vote exactly once per peer;
double votes (and votes from non-peers) are ignored. -/
def Election.vote (e : Election) (from_ : Nat) (granted : Bool) : Election :=
  if from_ ∈ e.peers ∧ (e.votes.lookup from_).isNone then
    { e with votes := (from_, granted) :: e.votes }
  else e

/-- Modelled from the spec: quorum is `floor(N/2) + 1` where N counts all
voting peers including self. -/
def Election.quorum (e : Election) : Nat :=
  e.peers.length / 2 + 1

/-- Modelled from the spec: election status — `Elected` when granted votes
reach quorum, `Defeated` when denials make quorum impossible
(denied > N − quorum), otherwise `Voting`. -/
def Election.electionStatus (e : Election) : ElectionStatus :=
  let granted := (e.votes.filter (fun v => v.2)).length
  let denied := (e.votes.filter (fun v => !v.2)).length
  if e.quorum ≤ granted then .elected
  else if e.peers.length - e.quorum < denied then .defeated
  else .voting

/-- Modelled from the spec: `Election::reset` clears the tallies. -/
def Election.reset (e : Election) : Election :=
  { e with votes := [] }

/-- The `Follower` role struct (follower.rs is not in the provided sources;
the field is taken from the `From<Raft<Candidate>> for Raft<Follower>` impl
in candidate.rs and the spec): a `leader_id` hint. -/
structure Follower where
  leader_id : Option Nat
deriving Repr

/-- The `Candidate` role struct of candidate.rs: holds the `Election`. -/
structure Candidate where
  election : Election
deriving Repr

/-- Modelled from the spec: per-peer `{ next_index, match_index }` pairs
(progress.rs is not in the provided sources).  `ReplicationProgress::new`
is called from candidate.rs with only the node ids. -/
structure ReplicationProgress where
  progress : List (Nat × Nat × Nat)
deriving Repr

/-- Modelled from the spec: `ReplicationProgress::new(nodes)` as called in
candidate.rs; each node starts with fresh bookkeeping. -/
def ReplicationProgress.new (nodes : List Nat) : ReplicationProgress :=
  { progress := nodes.map (fun n => (n, 0, 0)) }

/-- The `Leader` role struct (leader.rs is not in the provided sources; the
fields follow the `From<Raft<Candidate>> for Raft<Leader>` impl in
candidate.rs): replication progress and heartbeat timing. -/
structure Leader where
  progress : ReplicationProgress
  heartbeat_time : Nat
  heartbeat_timeout : Nat
deriving Repr

/-- The `Raft<T>` struct of raft.rs, restricted to the fields the embedded
behavior reads: node `id`, the shared `State`, the `RaftConfig`, the commit
log (modelled as the list of entries, in index order) and the role-specific
state.  The logger and the rpc/fsm channel handles are not modelled; sends
on the rpc channel are returned as lists of `Message`. -/
structure Raft (ρ : Type) where
  id : Nat
  state : State
  config : RaftConfig
  log : List Entry
  role : ρ

/-- The `RaftHandle` enum of raft.rs: the state machine in one of the three
roles. -/
inductive RaftHandle where
  | follower (r : Raft Follower)
  | candidate (r : Raft Candidate)
  | leader (r : Raft Leader)

/-- `Raft::needs_election` from raft.rs: true when both election timer
fields are set and the elapsed time since `election_time` exceeds
`election_timeout`. -/
def needsElection (s : State) (now : Nat) : Bool :=
  match s.election_time, s.election_timeout with
  | some time, some tmo => decide (tmo < now - time)
  | _, _ => false

/-- `Raft::term` from raft.rs (lines 196–203): set the current term and
clear `voted_for` (the role-level `Role::term` hook is applied by the
per-role callers). -/
def State.withTerm (s : State) (term : Nat) : State :=
  { s with voted_for := none, current_term := term }

/-- `Role::term` for `Candidate` from candidate.rs: reset the election. -/
def Candidate.termRole (c : Candidate) (_term : Nat) : Candidate :=
  { c with election := c.election.reset }

/-- Modelled from the spec: `log.entry_at(index)` (the log component is not
in the provided sources); the log is the list of entries in index order. -/
def entryAt (log : List Entry) (i : Nat) : Option Entry :=
  log.find? (fun e => e.index == i)

/-- Modelled from the spec: `log.last_index()`, 0 when the log is empty. -/
def lastIndex (log : List Entry) : Nat :=
  log.foldl (fun m e => max m e.index) 0

/-- Modelled from the spec: `log.last_term()`, 0 when the log is empty. -/
def lastTerm (log : List Entry) : Nat :=
  ((entryAt log (lastIndex log)).map Entry.term).getD 0

/-- Modelled from the spec: `log.truncate_from(index)` removes all entries
with index ≥ the given index. -/
def truncateFrom (log : List Entry) (i : Nat) : List Entry :=
  log.filter (fun e => decide (e.index < i))

/-- Modelled from the spec: the follower append rule — if an entry at the
incoming index exists with a different term, truncate from that index; then
append the entry if not already present. -/
def appendOne (log : List Entry) (e : Entry) : List Entry :=
  match entryAt log e.index with
  | some old => if old.term == e.term then log else truncateFrom log e.index ++ [e]
  | none => log ++ [e]

/-- Modelled from the spec: process a batch of incoming entries in order
with the follower append rule. -/
def appendEntriesToLog (log : List Entry) (es : List Entry) : List Entry :=
  es.foldl appendOne log

/-- Modelled from the spec: the candidate's log (described by `last_term`,
`last_index`) is at least as up-to-date as the local log. -/
def logUpToDate (log : List Entry) (last_term last_index : Nat) : Bool :=
  decide (lastTerm log < last_term) ||
    (last_term == lastTerm log && decide (lastIndex log ≤ last_index))

/-- The term carried by a wire command, when it carries one (per the field
lists of the `Command` enum in raft.rs). -/
def Command.msgTerm : Command → Option Nat
  | .voteRequest t _ _ _ => some t
  | .voteResponse t _ _ => some t
  | .appendEntries t _ _ => some t
  | .appendResponse _ t _ => some t
  | .heartbeat t _ => some t
  | .ping t _ => some t
  | _ => none

/-- Modelled from the spec: `Raft::send(addr, cmd)` produces one envelope
addressed to `addr` from this node. -/
def send (self : Nat) (addr : Address) (cmd : Command) : Message :=
  { to_ := addr, from_ := .peer self, command := cmd }

/-- Modelled from the spec: `Raft::send_all(cmd)` produces one broadcast
envelope from this node. -/
def sendAll (self : Nat) (cmd : Command) : Message :=
  { to_ := .broadcast, from_ := .peer self, command := cmd }

/-- The `From<Raft<Candidate>> for Raft<Follower>` impl of candidate.rs:
shared state is carried over unchanged and `leader_id` is set to `None`. -/
def candidateToFollower (r : Raft Candidate) : Raft Follower :=
  { id := r.id, state := r.state, config := r.config, log := r.log,
    role := { leader_id := none } }

/-- The `From<Raft<Candidate>> for Raft<Leader>` impl of candidate.rs:
replication progress is created over the peer ids plus self, and
`heartbeat_time` is set to now. -/
def candidateToLeader (now : Nat) (r : Raft Candidate) : Raft Leader :=
  { id := r.id, state := r.state, config := r.config, log := r.log,
    role := { progress := ReplicationProgress.new (r.config.nodes.map Node.id ++ [r.id]),
              heartbeat_time := now,
              heartbeat_timeout := r.config.heartbeat_timeout } }

/-- Modelled from the spec: `From<Raft<Follower>> for Raft<Candidate>`
(follower.rs is not in the provided sources): a fresh `Election` over the
peers plus self with an empty tally. -/
def followerToCandidate (r : Raft Follower) : Raft Candidate :=
  { id := r.id, state := r.state, config := r.config, log := r.log,
    role := { election := { term := r.state.current_term,
                            peers := r.config.nodes.map Node.id ++ [r.id],
                            votes := [] } } }

/-- Modelled from the spec: `From<Raft<Leader>> for Raft<Follower>`
(leader.rs is not in the provided sources): shared state carried over,
no known leader recorded. -/
def leaderToFollower (r : Raft Leader) : Raft Follower :=
  { id := r.id, state := r.state, config := r.config, log := r.log,
    role := { leader_id := none } }

/-- Modelled from the spec: `Raft::<Leader>::heartbeat` (leader.rs is not in
the provided sources): send a heartbeat at the current term to every peer. -/
def Raft.heartbeat (r : Raft Leader) : List Message :=
  r.config.nodes.map (fun n => send r.id (.peer n.id) (.heartbeat r.state.current_term r.id))

/-- The `Command::VoteResponse` arm of `Apply for Raft<Candidate>` in
candidate.rs: record the vote in the election (the response's term is
ignored by the source pattern `Command::VoteResponse { granted, from, .. }`),
then branch on the election status — Elected becomes Leader and heartbeats,
Voting stays Candidate, Defeated clears `voted_for` and becomes Follower. -/
def candidateCountVote (now : Nat) (r : Raft Candidate) (from_ : Nat) (granted : Bool) :
    RaftHandle × List Message :=
  let r : Raft Candidate := { r with role := ⟨r.role.election.vote from_ granted⟩ }
  match r.role.election.electionStatus with
  | .elected =>
    let l := candidateToLeader now r
    (.leader l, l.heartbeat)
  | .voting => (.candidate r, [])
  | .defeated =>
    let r := { r with state := { r.state with voted_for := none } }
    (.follower (candidateToFollower r), [])

/-- `Raft::<Candidate>::seek_election` from candidate.rs: set
`voted_for := self`, increment `current_term`, send one broadcast
VoteRequest per configured node — carrying the new term, self as candidate,
`last_term` equal to the new term and `last_index` equal to `last_applied` —
then apply a granted VoteResponse from self. -/
def seekElection (now : Nat) (r : Raft Candidate) : RaftHandle × List Message :=
  let r := { r with state := { r.state with voted_for := some r.id } }
  let r := { r with state := { r.state with current_term := r.state.current_term + 1 } }
  let term := r.state.current_term
  let reqs := r.config.nodes.map (fun _ =>
    sendAll r.id (.voteRequest term r.id term r.state.last_applied))
  let res := candidateCountVote now r r.id true
  (res.1, reqs ++ res.2)

/-- Modelled from the spec: the shared precondition for every inbound RPC
carrying a term — if `msg.term > current_term`, adopt that term and clear
`voted_for` (via `Raft::term`). -/
def State.observeTerm (s : State) (cmd : Command) : State :=
  match cmd.msgTerm with
  | some t => if s.current_term < t then s.withTerm t else s
  | none => s

/-- Modelled from the spec: `Apply for Raft<Follower>` (follower.rs is not
in the provided sources): the shared higher-term precondition, then the
follower rules of §4.4 — elections on Tick/Timeout, append/heartbeat
handling with election-deadline reset and acknowledgement, and the vote
grant rule — restricted to the fields the wire `Command` of raft.rs
actually carries. -/
def followerApply (now : Nat) (r0 : Raft Follower) (cmd : Command) :
    RaftHandle × List Message :=
  let r : Raft Follower := { r0 with state := r0.state.observeTerm cmd }
  match cmd with
  | .tick =>
    if needsElection r.state now then seekElection now (followerToCandidate r)
    else (.follower r, [])
  | .timeout => seekElection now (followerToCandidate r)
  | .heartbeat t lid =>
    if r.state.current_term ≤ t then
      (.follower { r with role := ⟨some lid⟩,
                          state := { r.state with election_time := some now } },
       [send r.id (.peer lid) (.appendResponse r.id r.state.current_term (lastIndex r.log))])
    else (.follower r, [])
  | .appendEntries t lid es =>
    if r.state.current_term ≤ t then
      let log := appendEntriesToLog r.log es
      (.follower { r with log := log, role := ⟨some lid⟩,
                          state := { r.state with election_time := some now } },
       [send r.id (.peer lid) (.appendResponse r.id r.state.current_term (lastIndex log))])
    else (.follower r, [])
  | .voteRequest t cid lt li =>
    if r.state.current_term ≤ t ∧ (r.state.voted_for = none ∨ r.state.voted_for = some cid)
        ∧ logUpToDate r.log lt li then
      (.follower { r with state := { r.state with voted_for := some cid,
                                                  election_time := some now } },
       [send r.id (.peer cid) (.voteResponse r.state.current_term r.id true)])
    else (.follower r, [send r.id (.peer cid) (.voteResponse r.state.current_term r.id false)])
  | _ => (.follower r, [])

/-- `Apply for Raft<Candidate>` from candidate.rs, arm for arm: Tick runs
the election-deadline check and on expiry abandons the candidacy (clearing
`voted_for` and re-entering via the follower's Timeout), VoteRequest is
answered not-granted, VoteResponse is tallied, AppendEntries and Heartbeat
with `term ≥ current_term` convert to Follower without further processing,
and every other command returns the candidate unchanged. -/
def candidateApply (now : Nat) (r : Raft Candidate) (cmd : Command) :
    RaftHandle × List Message :=
  match cmd with
  | .tick =>
    if needsElection r.state now then
      match r.role.election.electionStatus with
      | .elected => (.leader (candidateToLeader now r), [])
      | .voting =>
        let r : Raft Candidate := { r with state := { r.state with voted_for := none } }
        followerApply now (candidateToFollower r) .timeout
      | .defeated =>
        let r : Raft Candidate := { r with state := { r.state with voted_for := none } }
        followerApply now (candidateToFollower r) .timeout
    else (.candidate r, [])
  | .voteRequest _ cid _ _ =>
    (.candidate r, [send r.id (.peer cid) (.voteResponse r.state.current_term r.id false)])
  | .voteResponse _ from_ granted => candidateCountVote now r from_ granted
  | .appendEntries t _ _ =>
    if r.state.current_term ≤ t then (.follower (candidateToFollower r), [])
    else (.candidate r, [])
  | .heartbeat t _ =>
    if r.state.current_term ≤ t then (.follower (candidateToFollower r), [])
    else (.candidate r, [])
  | _ => (.candidate r, [])

/-- Modelled from the spec: on a successful append reply with replicated
`index`, `match_index := max(match_index, index)` and
`next_index := match_index + 1` for that peer. -/
def ReplicationProgress.update (p : ReplicationProgress) (node index : Nat) :
    ReplicationProgress :=
  { progress := p.progress.map (fun q =>
      if q.1 = node then (q.1, max q.2.2 index + 1, max q.2.2 index) else q) }

/-- Modelled from the spec: a quorum of peers has `match_index ≥ n`. -/
def ReplicationProgress.quorumMatch (p : ReplicationProgress) (n : Nat) : Bool :=
  p.progress.length / 2 + 1 ≤ (p.progress.filter (fun q => decide (n ≤ q.2.2))).length

/-- Modelled from the spec: commit advancement — the highest `N` above
`commit_index` whose entry has the current term and is matched by a
quorum. -/
def advanceCommit (r : Raft Leader) : Raft Leader :=
  let ok := fun n => decide (r.state.commit_index < n) &&
    ((entryAt r.log n).map Entry.term == some r.state.current_term) &&
    r.role.progress.quorumMatch n
  let n := ((List.range (lastIndex r.log + 1)).filter ok).foldl max r.state.commit_index
  { r with state := { r.state with commit_index := n } }

/-- Modelled from the spec: `Apply for Raft<Leader>` (leader.rs is not in
the provided sources): a strictly higher term converts to Follower and the
command is processed under the follower rules; otherwise Tick heartbeats
when due, AppendResponse updates progress and commit, VoteRequest is
answered not-granted, and other commands leave the leader unchanged. -/
def leaderApply (now : Nat) (r : Raft Leader) (cmd : Command) :
    RaftHandle × List Message :=
  if (cmd.msgTerm.map (fun t => decide (r.state.current_term < t))).getD false then
    followerApply now (leaderToFollower r) cmd
  else
    match cmd with
    | .tick =>
      if r.role.heartbeat_timeout < now - r.role.heartbeat_time then
        let r : Raft Leader := { r with role := { r.role with heartbeat_time := now } }
        (.leader r, r.heartbeat)
      else (.leader r, [])
    | .appendResponse node _ index =>
      let r : Raft Leader :=
        { r with role := { r.role with progress := r.role.progress.update node index } }
      (.leader (advanceCommit r), [])
    | .voteRequest _ cid _ _ =>
      (.leader r, [send r.id (.peer cid) (.voteResponse r.state.current_term r.id false)])
    | _ => (.leader r, [])

/-- The `Apply for RaftHandle` impl of raft.rs: dispatch to the current
role's apply. -/
def RaftHandle.apply (now : Nat) (h : RaftHandle) (cmd : Command) :
    RaftHandle × List Message :=
  match h with
  | .follower r => followerApply now r cmd
  | .candidate r => candidateApply now r cmd
  | .leader r => leaderApply now r cmd

/-- The `current_term` of the shared state, whatever the current role. -/
def RaftHandle.currentTerm : RaftHandle → Nat
  | .follower r => r.state.current_term
  | .candidate r => r.state.current_term
  | .leader r => r.state.current_term

/-- The `Instruction` enum of fsm.rs: `Drive { entry }` or `Query(bytes)`. -/
inductive Instruction where
  | drive (entry : Entry)
  | query (data : List Nat)

/-- The `Fsm` trait of fsm.rs: `transition` and `query` both take `&mut
self` and bytes and return bytes; modelled as state-passing functions over a
state type `σ` with error type `ε`. -/
structure Fsm (σ ε : Type) where
  transition : σ → List Nat → Except ε (List Nat × σ)
  query : σ → List Nat → Except ε (List Nat × σ)

/-- The `Driver` struct of fsm.rs, restricted to the fields `exec` and `run`
read and write: the `applied_idx` bookkeeping field and the owned FSM state.
The channels are modelled as instruction lists in and message lists out. -/
structure Driver (σ : Type) where
  applied_idx : Nat
  fsm : σ

/-- `Driver::exec` from fsm.rs: a `Drive` instruction invokes
`fsm.transition` on the data exactly when the entry's payload is
`EntryType::Entry { data }` (the returned bytes are discarded); a `Query`
invokes `fsm.query` and sends a `ClientResponse` carrying `State(res)` from
`Local` to `Local`.  Errors from the FSM propagate. -/
def Driver.exec (F : Fsm σ ε) (d : Driver σ) :
    Instruction → Except ε (Driver σ × List Message)
  | .drive e =>
    match e.entry_type with
    | .entry data =>
      match F.transition d.fsm data with
      | .ok p => .ok ({ d with fsm := p.2 }, [])
      | .error err => .error err
    | _ => .ok (d, [])
  | .query data =>
    match F.query d.fsm data with
    | .ok p => .ok ({ d with fsm := p.2 },
        [{ to_ := .local, from_ := .local,
           command := .clientResponse [] (.ok (.state p.1)) }])
    | .error err => .error err

/-- `Driver::run` from fsm.rs: process the inbound instructions in order
through `exec`, stopping with the first error; on normal completion the
driver (owning the FSM) is returned. -/
def Driver.run (F : Fsm σ ε) (d : Driver σ) :
    List Instruction → Except ε (Driver σ × List Message)
  | [] => .ok (d, [])
  | i :: rest =>
    match d.exec F i with
    | .ok (d', ms) =>
      match Driver.run F d' rest with
      | .ok (d'', ms') => .ok (d'', ms ++ ms')
      | .error e => .error e
    | .error e => .error e

/-- The specified wire `AppendEntries` of spec §6, with all six fields of
the spec's field list (for comparison with the `Command` enum of raft.rs). -/
structure SpecAppendEntries where
  term : Nat
  leader_id : Nat
  prev_index : Nat
  prev_term : Nat
  entries : List Entry
  leader_commit : Nat

/-- The specified wire `AppendResponse` of spec §6, with its four fields
including the `success` flag. -/
structure SpecAppendResponse where
  term : Nat
  from_ : Nat
  index : Nat
  success : Bool

/-- The canonical field-preserving encoding of a specified `AppendEntries`
onto the wire `Command` of raft.rs: the wire constructor has slots only for
`term`, `leader_id` and `entries`. -/
def SpecAppendEntries.toWire (s : SpecAppendEntries) : Command :=
  .appendEntries s.term s.leader_id s.entries

/-- The canonical field-preserving encoding of a specified `AppendResponse`
onto the wire `Command` of raft.rs: the wire constructor has slots only for
a node id, `term` and `index`. -/
def SpecAppendResponse.toWire (s : SpecAppendResponse) : Command :=
  .appendResponse s.from_ s.term s.index

/-! Concrete states used to evaluate the embedded code on explicit inputs. -/

/-- A three-node cluster candidate at term 1 that has voted for itself. -/
def exCandidateT1 : Raft Candidate :=
  { id := 1
    state := { State.default with current_term := 1, voted_for := some 1 }
    config := { nodes := [⟨2, 0⟩, ⟨3, 0⟩], heartbeat_timeout := 1 }
    log := []
    role := ⟨{ term := 1, peers := [1, 2, 3], votes := [(1, true)] }⟩ }

/-- A two-node cluster candidate at term 1 with one committed log entry at
index 1, term 1, and `last_applied = 0`. -/
def exCandidateLog : Raft Candidate :=
  { id := 1
    state := { State.default with current_term := 1 }
    config := { nodes := [⟨2, 0⟩], heartbeat_timeout := 1 }
    log := [.mk (.entry [9]) 1 1]
    role := ⟨{ term := 1, peers := [1, 2], votes := [] }⟩ }

/-- A three-node cluster candidate at term 5 holding only its self-granted
vote. -/
def exCandidateT5 : Raft Candidate :=
  { id := 1
    state := { State.default with current_term := 5, voted_for := some 1 }
    config := { nodes := [⟨2, 0⟩, ⟨3, 0⟩], heartbeat_timeout := 1 }
    log := []
    role := ⟨{ term := 5, peers := [1, 2, 3], votes := [(1, true)] }⟩ }

/-- `exCandidateT5` after the tally additionally records a granted vote from
node 2. -/
def exCandidateT5Voted : Raft Candidate :=
  { exCandidateT5 with role := ⟨{ term := 5, peers := [1, 2, 3], votes := [(2, true), (1, true)] }⟩ }

/-- A log entry carrying data bytes at index 4, term 2. -/
def exEntry4 : Entry := .mk (.entry [7]) 2 4

/-- A specified AppendEntries with `prev_index = 1`, `prev_term = 2`,
`leader_commit = 0`. -/
def exSpecAE1 : SpecAppendEntries := ⟨3, 1, 1, 2, [], 0⟩

/-- The same specified AppendEntries except `prev_index = 9`,
`prev_term = 7`, `leader_commit = 5`. -/
def exSpecAE2 : SpecAppendEntries := ⟨3, 1, 9, 7, [], 5⟩

/-- A specified successful AppendResponse. -/
def exSpecAR1 : SpecAppendResponse := ⟨3, 2, 4, true⟩

/-- The same specified AppendResponse with `success = false`. -/
def exSpecAR2 : SpecAppendResponse := ⟨3, 2, 4, false⟩

/-- A counter FSM over `Nat` state: `transition` echoes the input and
increments the state; `query` returns the input unchanged. -/
def exFsmCount : Fsm Nat Unit :=
  { transition := fun s d => .ok (d, s + 1)
    query := fun s d => .ok (d, s) }

/-- An FSM over `Nat` state whose `transition` always fails. -/
def exFsmFail : Fsm Nat Unit :=
  { transition := fun _ _ => .error ()
    query := fun s d => .ok (d, s) }

/-- A fresh driver with `applied_idx = 0` and FSM state 0. -/
def exDriver0 : Driver Nat := { applied_idx := 0, fsm := 0 }

/-- A log entry with a `Data` payload at index 5, term 3. -/
def exEntry5 : Entry := .mk (.entry [7]) 3 5

/-- C10: applying Start, AddNode, AppendResponse, Timeout, Noop or Ping to a
node in the Candidate role returns the identical candidate — current term,
voted-for, commit index, last applied, election timers and election tally
all unchanged — and emits no outbound messages. -/
theorem candidate_frame_commands (now : Nat) (r : Raft Candidate)
    (a n t i t2 n2 : Nat) :
    candidateApply now r .start = (.candidate r, []) ∧
    candidateApply now r (.addNode a) = (.candidate r, []) ∧
    candidateApply now r (.appendResponse n t i) = (.candidate r, []) ∧
    candidateApply now r .timeout = (.candidate r, []) ∧
    candidateApply now r .noop = (.candidate r, []) ∧
    candidateApply now r (.ping t2 n2) = (.candidate r, []) :=
  ⟨rfl, rfl, rfl, rfl, rfl, rfl⟩

/-- C1 (the embedded code evaluated at the failing input): a Candidate at
term 1 receiving a VoteRequest at term 5 replies not-granted and remains
Candidate with `current_term` still 1 and `voted_for` still itself — the
higher term is not adopted, `voted_for` is not cleared and no transition to
Follower happens before the command is processed. -/
theorem candidate_ignores_higher_term_vote_request :
    candidateApply 0 exCandidateT1 (.voteRequest 5 2 0 0) =
      (.candidate exCandidateT1, [send 1 (.peer 2) (.voteResponse 1 1 false)]) ∧
    exCandidateT1.state.current_term = 1 ∧
    exCandidateT1.state.voted_for = some 1 :=
  ⟨rfl, rfl, rfl⟩

/-- C4 counterexample: the wire `Command` of raft.rs cannot carry the
specified AppendEntries and AppendResponse fields — two specified
AppendEntries differing only in `prev_index`, `prev_term` and
`leader_commit` have the same wire image, and two specified AppendResponses
differing only in `success` have the same wire image. -/
theorem wire_append_drops_spec_fields :
    exSpecAE1 ≠ exSpecAE2 ∧ exSpecAE1.toWire = exSpecAE2.toWire ∧
    exSpecAR1 ≠ exSpecAR2 ∧ exSpecAR1.toWire = exSpecAR2.toWire := by
  refine ⟨fun h => ?_, rfl, fun h => ?_, rfl⟩
  · exact absurd (congrArg SpecAppendEntries.prev_index h) (by decide)
  · exact absurd (congrArg SpecAppendResponse.success h) (by decide)

/-- C4 amended: the wire AppendEntries of raft.rs carries only `term`,
`leader_id` and `entries` — its image is constant in the specified
`prev_index`, `prev_term` and `leader_commit` — and the wire AppendResponse
carries only `node_id`, `term` and `index` — its image is constant in the
specified `success` flag. -/
theorem wire_command_field_lists (s : SpecAppendEntries) (p q c : Nat)
    (resp : SpecAppendResponse) (b : Bool) :
    s.toWire =
      ({ s with prev_index := p, prev_term := q, leader_commit := c } : SpecAppendEntries).toWire ∧
    resp.toWire = ({ resp with success := b } : SpecAppendResponse).toWire :=
  ⟨rfl, rfl⟩

/-- C5 counterexample: executing `Drive` for a `Data` entry at index 5
invokes the FSM transition but leaves the Driver's `applied_idx` at 0 — it
does not advance to the applied entry's index. -/
theorem driver_applied_idx_not_advanced :
    Driver.exec exFsmCount exDriver0 (.drive exEntry5) =
      .ok ({ applied_idx := 0, fsm := 1 }, []) ∧
    exEntry5.index = 5 ∧
    ({ applied_idx := 0, fsm := 1 } : Driver Nat).applied_idx ≠ exEntry5.index :=
  ⟨rfl, rfl, by decide⟩

/-- C5 amended: for a `Drive{entry}` instruction, `fsm.transition` is
invoked on the bytes exactly when the entry's payload is `Data(bytes)`
(propagating its error if any); `Config` and `Command` payloads are not
applied to the FSM; and the Driver's `applied_idx` is left unchanged in
every case (fsm.rs never advances it). -/
theorem driver_exec_drive {σ ε : Type} (F : Fsm σ ε) (d : Driver σ) (entry : Entry) :
    (∀ data, entry.entry_type = .entry data →
      Driver.exec F d (.drive entry) =
        match F.transition d.fsm data with
        | .ok p => .ok ({ applied_idx := d.applied_idx, fsm := p.2 }, [])
        | .error err => .error err) ∧
    (entry.entry_type = .config → Driver.exec F d (.drive entry) = .ok (d, [])) ∧
    (∀ c, entry.entry_type = .command c → Driver.exec F d (.drive entry) = .ok (d, [])) := by
  obtain ⟨et, t, i⟩ := entry
  cases et with
  | entry data0 =>
    refine ⟨fun data h => ?_, fun h => EntryType.noConfusion h, fun c h => EntryType.noConfusion h⟩
    injection h with h1
    subst h1
    rfl
  | config =>
    exact ⟨fun data h => EntryType.noConfusion h, fun _ => rfl, fun c h => EntryType.noConfusion h⟩
  | command c0 =>
    exact ⟨fun data h => EntryType.noConfusion h, fun h => EntryType.noConfusion h, fun c _ => rfl⟩

/-- C5 witness: the amended statement evaluated on a concrete `Data` entry
and the counter FSM. -/
theorem driver_exec_drive_witness :
    exEntry5.entry_type = .entry [7] ∧
    Driver.exec exFsmCount exDriver0 (.drive exEntry5) =
      .ok ({ applied_idx := 0, fsm := 1 }, []) :=
  ⟨rfl, by
    have h := (driver_exec_drive exFsmCount exDriver0 exEntry5).1 [7] rfl
    exact h.trans rfl⟩

/-- C6 counterexample: a Candidate at term 1 receiving AppendEntries at
term 2 with a non-empty entry batch becomes a Follower whose `leader_id` is
`none` (the sender is not recorded), whose log is unchanged (the entries
are not appended), whose election deadline is not reset, and no message is
emitted — the command is not reprocessed under the Follower rules. -/
theorem candidate_concede_drops_message :
    candidateApply 9 exCandidateT1 (.appendEntries 2 7 [exEntry4]) =
      (.follower (candidateToFollower exCandidateT1), []) ∧
    (candidateToFollower exCandidateT1).role.leader_id = none ∧
    (candidateToFollower exCandidateT1).log = [] ∧
    (candidateToFollower exCandidateT1).state.election_time = none :=
  ⟨rfl, rfl, rfl, rfl⟩

/-- C6 amended: a Candidate receiving AppendEntries or Heartbeat with
`term ≥ current_term` converts to Follower with `leader_id := none`,
carrying its shared state and log over unchanged, and emits nothing; the
message itself is not processed further. -/
theorem candidate_concede_append_heartbeat (now : Nat) (r : Raft Candidate)
    (t lid : Nat) (es : List Entry) (h : r.state.current_term ≤ t) :
    candidateApply now r (.appendEntries t lid es) =
      (.follower (candidateToFollower r), []) ∧
    candidateApply now r (.heartbeat t lid) =
      (.follower (candidateToFollower r), []) ∧
    (candidateToFollower r).role.leader_id = none ∧
    (candidateToFollower r).log = r.log ∧
    (candidateToFollower r).state = r.state := by
  refine ⟨?_, ?_, rfl, rfl, rfl⟩ <;> simp [candidateApply, h]

/-- C6 witness: the amended statement evaluated at a concrete candidate and
heartbeat. -/
theorem candidate_concede_append_heartbeat_witness :
    exCandidateT1.state.current_term ≤ 2 ∧
    candidateApply 9 exCandidateT1 (.heartbeat 2 7) =
      (.follower (candidateToFollower exCandidateT1), []) :=
  ⟨by decide, (candidate_concede_append_heartbeat 9 exCandidateT1 2 7 [] (by decide)).2.1⟩

/-- C7 counterexample: a Candidate at current term 5 receiving a
VoteResponse carrying stale term 1 still records the vote in its Election
(the tally gains the vote from node 2) and, the tally reaching quorum, it
becomes Leader — the response's term is not compared with `current_term`. -/
theorem candidate_records_stale_term_vote :
    candidateApply 0 exCandidateT5 (.voteResponse 1 2 true) =
      (.leader (candidateToLeader 0 exCandidateT5Voted),
       (candidateToLeader 0 exCandidateT5Voted).heartbeat) ∧
    exCandidateT5Voted.role.election.votes =
      (2, true) :: exCandidateT5.role.election.votes ∧
    (1 : Nat) ≠ exCandidateT5.state.current_term :=
  ⟨rfl, rfl, by decide⟩

/-- C7 amended: a Candidate records every VoteResponse in its Election
regardless of the response's term; then if the election status is Elected
it becomes Leader and immediately sends a heartbeat to every peer, if
Defeated it clears `voted_for` and becomes Follower, and if still Voting it
remains Candidate. -/
theorem candidate_vote_response (now : Nat) (r : Raft Candidate)
    (term from_ : Nat) (granted : Bool) :
    candidateApply now r (.voteResponse term from_ granted) =
      candidateCountVote now r from_ granted ∧
    ∀ r' : Raft Candidate,
      r' = { r with role := ⟨r.role.election.vote from_ granted⟩ } →
      (r'.role.election.electionStatus = .elected →
        candidateCountVote now r from_ granted =
          (.leader (candidateToLeader now r'), (candidateToLeader now r').heartbeat)) ∧
      (r'.role.election.electionStatus = .voting →
        candidateCountVote now r from_ granted = (.candidate r', [])) ∧
      (r'.role.election.electionStatus = .defeated →
        candidateCountVote now r from_ granted =
          (.follower (candidateToFollower
            { r' with state := { r'.state with voted_for := none } }), [])) := by
  constructor
  · rfl
  · rintro r' rfl
    refine ⟨fun h => ?_, fun h => ?_, fun h => ?_⟩ <;>
      simp [candidateCountVote, h]

/-- C7 witness: the amended statement evaluated where the recorded vote
elects the candidate. -/
theorem candidate_vote_response_witness :
    exCandidateT5Voted.role.election.electionStatus = .elected ∧
    candidateCountVote 0 exCandidateT5 2 true =
      (.leader (candidateToLeader 0 exCandidateT5Voted),
       (candidateToLeader 0 exCandidateT5Voted).heartbeat) := by
  have h := ((candidate_vote_response 0 exCandidateT5 1 2 true).2 exCandidateT5Voted rfl).1
  exact ⟨rfl, h rfl⟩

/-- Every message emitted by the VoteResponse tally step carries a
Heartbeat command (it emits nothing unless the election is won). -/
theorem candidateCountVote_msgs_heartbeat (now : Nat) (r : Raft Candidate)
    (f : Nat) (g : Bool) :
    ∀ m ∈ (candidateCountVote now r f g).2, ∃ t l, m.command = .heartbeat t l := by
  intro m hm
  simp only [candidateCountVote] at hm
  split at hm
  · simp only [Raft.heartbeat, send, List.mem_map] at hm
    obtain ⟨n, _, rfl⟩ := hm
    exact ⟨_, _, rfl⟩
  · simp at hm
  · simp at hm

/-- C2 counterexample: a candidate whose log has last term 1 and last index
1 but `last_applied = 0` broadcasts, on seek_election, a VoteRequest with
`last_term = 2` (its new current term) and `last_index = 0` (its
last_applied) — not the log's last term and last index. -/
theorem seek_election_wrong_fields :
    (seekElection 0 exCandidateLog).2 = [sendAll 1 (.voteRequest 2 1 2 0)] ∧
    lastTerm exCandidateLog.log = 1 ∧ lastIndex exCandidateLog.log = 1 ∧
    (2 : Nat) ≠ lastTerm exCandidateLog.log ∧
    (0 : Nat) ≠ lastIndex exCandidateLog.log :=
  ⟨rfl, rfl, rfl, by decide, by decide⟩

/-- C2 amended: every VoteRequest broadcast by seek_election carries
`last_term` equal to the candidate's new (incremented) `current_term` and
`last_index` equal to its `last_applied` index. -/
theorem seek_election_vote_request_fields (now : Nat) (r : Raft Candidate)
    (m : Message) (hm : m ∈ (seekElection now r).2)
    (t c lt li : Nat) (hc : m.command = .voteRequest t c lt li) :
    t = r.state.current_term + 1 ∧ c = r.id ∧
    lt = r.state.current_term + 1 ∧ li = r.state.last_applied := by
  simp only [seekElection, List.mem_append] at hm
  rcases hm with hm | hm
  · simp only [List.mem_map] at hm
    obtain ⟨n, _, rfl⟩ := hm
    simp only [sendAll] at hc
    injection hc with h1 h2 h3 h4
    exact ⟨h1.symm, h2.symm, h3.symm, h4.symm⟩
  · obtain ⟨t', l', hcmd⟩ := candidateCountVote_msgs_heartbeat _ _ _ _ m hm
    rw [hc] at hcmd
    exact Command.noConfusion hcmd

/-- C2 amended witness: the field law evaluated on the concrete broadcast
of `exCandidateLog`. -/
theorem seek_election_vote_request_fields_witness :
    sendAll 1 (.voteRequest 2 1 2 0) ∈ (seekElection 0 exCandidateLog).2 ∧
    (2 = exCandidateLog.state.current_term + 1 ∧ 1 = exCandidateLog.id ∧
     2 = exCandidateLog.state.current_term + 1 ∧
     0 = exCandidateLog.state.last_applied) := by
  have hmem : sendAll 1 (.voteRequest 2 1 2 0) ∈ (seekElection 0 exCandidateLog).2 := by
    show sendAll 1 (.voteRequest 2 1 2 0) ∈ [sendAll 1 (.voteRequest 2 1 2 0)]
    exact List.mem_singleton.mpr rfl
  exact ⟨hmem,
    seek_election_vote_request_fields 0 exCandidateLog _ hmem 2 1 2 0 rfl⟩

/-- In a cluster of at least two voting peers, a single granted vote leaves
the election status at Voting. -/
theorem electionStatus_single_grant (e : Election) (id : Nat)
    (h : 2 ≤ e.peers.length) :
    ({ e with votes := [(id, true)] } : Election).electionStatus = .voting := by
  show (if e.peers.length / 2 + 1 ≤ 1 then ElectionStatus.elected
    else if e.peers.length - (e.peers.length / 2 + 1) < 0 then ElectionStatus.defeated
    else ElectionStatus.voting) = ElectionStatus.voting
  rw [if_neg (by omega), if_neg (by omega)]

/-- Recording a vote that leaves the status at Voting keeps the node in the
Candidate role with the updated tally and emits nothing. -/
theorem candidateCountVote_eq (now : Nat) (r : Raft Candidate) (f : Nat)
    (g : Bool) (e' : Election) (hv : r.role.election.vote f g = e')
    (hs : e'.electionStatus = .voting) :
    candidateCountVote now r f g = (.candidate { r with role := ⟨e'⟩ }, []) := by
  simp [candidateCountVote, hv, hs]

/-- C8: on entry to the Candidate role, seek_election increments
`current_term` by exactly 1, sets `voted_for` to the node's own id,
broadcasts a VoteRequest carrying the new term, and records a granted
self-vote in the election tally (stated for a fresh tally over at least two
voting peers, where the self-vote cannot already decide the election). -/
theorem seek_election_entry (now : Nat) (r : Raft Candidate)
    (h1 : r.role.election.votes = [])
    (h2 : r.id ∈ r.role.election.peers)
    (h3 : 2 ≤ r.role.election.peers.length)
    (h4 : r.config.nodes ≠ []) :
    ∃ r' : Raft Candidate,
      (seekElection now r).1 = .candidate r' ∧
      r'.state.current_term = r.state.current_term + 1 ∧
      r'.state.voted_for = some r.id ∧
      (r.id, true) ∈ r'.role.election.votes ∧
      sendAll r.id (.voteRequest (r.state.current_term + 1) r.id
        (r.state.current_term + 1) r.state.last_applied) ∈ (seekElection now r).2 := by
  have hv : r.role.election.vote r.id true =
      { r.role.election with votes := [(r.id, true)] } := by
    simp [Election.vote, h1, h2]
  have hs := electionStatus_single_grant r.role.election r.id h3
  have key : candidateCountVote now
      { r with state := { r.state with
                          voted_for := some r.id
                          current_term := r.state.current_term + 1 } } r.id true =
      (.candidate { r with
        state := { r.state with
                   voted_for := some r.id
                   current_term := r.state.current_term + 1 }
        role := ⟨{ r.role.election with votes := [(r.id, true)] }⟩ }, []) :=
    candidateCountVote_eq now _ r.id true _ hv hs
  obtain ⟨a, l, hnl⟩ : ∃ a l, r.config.nodes = a :: l := by
    cases hnn : r.config.nodes with
    | nil => exact absurd hnn h4
    | cons a l => exact ⟨a, l, rfl⟩
  refine ⟨{ r with
      state := { r.state with
                 voted_for := some r.id
                 current_term := r.state.current_term + 1 }
      role := ⟨{ r.role.election with votes := [(r.id, true)] }⟩ }, ?_, rfl, rfl, ?_, ?_⟩
  · show (seekElection now r).1 = _
    simp [seekElection, key]
  · show (r.id, true) ∈ [(r.id, true)]
    exact List.mem_singleton.mpr rfl
  · simp [seekElection, key, hnl]

/-- C8 witness: seek_election evaluated on the concrete two-peer candidate
with a fresh tally. -/
theorem seek_election_entry_witness :
    (exCandidateLog.role.election.votes = [] ∧
     exCandidateLog.id ∈ exCandidateLog.role.election.peers ∧
     2 ≤ exCandidateLog.role.election.peers.length ∧
     exCandidateLog.config.nodes ≠ []) ∧
    (∃ r' : Raft Candidate,
      (seekElection 0 exCandidateLog).1 = .candidate r' ∧
      r'.state.current_term = exCandidateLog.state.current_term + 1 ∧
      r'.state.voted_for = some exCandidateLog.id ∧
      (exCandidateLog.id, true) ∈ r'.role.election.votes ∧
      sendAll exCandidateLog.id
        (.voteRequest (exCandidateLog.state.current_term + 1) exCandidateLog.id
          (exCandidateLog.state.current_term + 1)
          exCandidateLog.state.last_applied) ∈ (seekElection 0 exCandidateLog).2) :=
  ⟨⟨rfl, by decide, by decide, List.cons_ne_nil _ _⟩,
   seek_election_entry 0 exCandidateLog rfl (by decide) (by decide)
     (List.cons_ne_nil _ _)⟩

/-- Running the driver over instructions that end in a failing one yields
that failure, whatever instructions would have followed. -/
theorem driver_run_append_error {σ ε : Type} (F : Fsm σ ε) (i : Instruction)
    (e : ε) :
    ∀ (pre : List Instruction) (d d1 : Driver σ) (ms : List Message)
      (rest : List Instruction),
      Driver.run F d pre = .ok (d1, ms) →
      Driver.exec F d1 i = .error e →
      Driver.run F d (pre ++ i :: rest) = .error e := by
  intro pre
  induction pre with
  | nil =>
    intro d d1 ms rest h1 h2
    simp only [Driver.run] at h1
    obtain ⟨rfl, rfl⟩ : d = d1 ∧ [] = ms := by
      simpa [Prod.ext_iff] using h1
    simp [Driver.run, h2]
  | cons a pre ih =>
    intro d d1 ms rest h1 h2
    cases hx : Driver.exec F d a with
    | error err =>
      simp only [Driver.run, hx] at h1
      exact Except.noConfusion h1
    | ok p =>
      obtain ⟨d', ms1⟩ := p
      simp only [Driver.run, hx] at h1
      cases hy : Driver.run F d' pre with
      | error err => rw [hy] at h1; exact absurd h1 (by simp)
      | ok q =>
        obtain ⟨d'', ms2⟩ := q
        rw [hy] at h1
        simp only [Prod.ext_iff] at h1
        obtain ⟨h1a, h1b⟩ : d'' = d1 ∧ ms1 ++ ms2 = ms := by simpa using h1
        subst h1a
        have := ih d' d'' ms2 rest hy h2
        simp only [List.cons_append, Driver.run, hx]
        simp [this]

/-- C9: if `fsm.transition` fails while the Driver executes a
`Drive{entry}` instruction, `Driver::exec` returns that error and the run
loop terminates with the same error, whatever instructions were still
queued — no subsequent instruction is applied. -/
theorem driver_transition_error_halts {σ ε : Type} (F : Fsm σ ε)
    (d d1 : Driver σ) (pre rest : List Instruction) (ms : List Message)
    (entry : Entry) (data : List Nat) (e : ε)
    (hpre : Driver.run F d pre = .ok (d1, ms))
    (hdata : entry.entry_type = .entry data)
    (herr : F.transition d1.fsm data = .error e) :
    Driver.exec F d1 (.drive entry) = .error e ∧
    Driver.run F d (pre ++ .drive entry :: rest) = .error e := by
  obtain ⟨et, t, i⟩ := entry
  cases et with
  | entry data0 =>
    injection hdata with hd
    have hexec : Driver.exec F d1 (.drive (.mk (.entry data0) t i)) = .error e := by
      simp [Driver.exec, Entry.entry_type, hd, herr]
    exact ⟨hexec, driver_run_append_error F _ e pre d d1 ms rest hpre hexec⟩
  | config => exact EntryType.noConfusion hdata
  | command c0 => exact EntryType.noConfusion hdata

/-- C9 witness: a failing FSM transition on a concrete `Data` entry halts
the run loop before the queued Query instruction. -/
theorem driver_transition_error_halts_witness :
    (Driver.run exFsmFail exDriver0 [] = .ok (exDriver0, []) ∧
     exEntry5.entry_type = .entry [7] ∧
     exFsmFail.transition exDriver0.fsm [7] = .error ()) ∧
    (Driver.exec exFsmFail exDriver0 (.drive exEntry5) = .error () ∧
     Driver.run exFsmFail exDriver0
       ([] ++ .drive exEntry5 :: [.query []]) = .error ()) :=
  ⟨⟨rfl, rfl, rfl⟩,
   driver_transition_error_halts exFsmFail exDriver0 exDriver0 [] [.query []]
     [] exEntry5 [7] () rfl rfl rfl⟩

/-- Tallying a vote never changes the current term, whatever role results. -/
theorem candidateCountVote_term (now : Nat) (r : Raft Candidate) (f : Nat)
    (g : Bool) :
    (candidateCountVote now r f g).1.currentTerm = r.state.current_term := by
  simp only [candidateCountVote]
  split <;> rfl

/-- seek_election raises the resulting current term by exactly one. -/
theorem seekElection_term (now : Nat) (r : Raft Candidate) :
    (seekElection now r).1.currentTerm = r.state.current_term + 1 := by
  simp only [seekElection]
  exact candidateCountVote_term now _ r.id true

/-- The shared higher-term precondition never lowers the current term. -/
theorem observeTerm_le (s : State) (cmd : Command) :
    s.current_term ≤ (s.observeTerm cmd).current_term := by
  unfold State.observeTerm
  cases hmt : cmd.msgTerm with
  | none => simp [hmt]
  | some t =>
    simp only [hmt]
    split
    · simp [State.withTerm]
      omega
    · exact le_refl _

/-- The follower step never lowers the current term. -/
theorem followerApply_term (now : Nat) (r0 : Raft Follower) (cmd : Command) :
    r0.state.current_term ≤ (followerApply now r0 cmd).1.currentTerm := by
  have hobs := observeTerm_le r0.state cmd
  cases cmd with
  | tick =>
    simp only [followerApply]
    split
    · rw [seekElection_term]
      exact le_trans hobs (Nat.le_succ _)
    · exact hobs
  | timeout =>
    simp only [followerApply]
    rw [seekElection_term]
    exact le_trans hobs (Nat.le_succ _)
  | heartbeat t lid =>
    simp only [followerApply]
    split
    · exact hobs
    · exact hobs
  | appendEntries t lid es =>
    simp only [followerApply]
    split
    · exact hobs
    · exact hobs
  | voteRequest t cid lt li =>
    simp only [followerApply]
    split
    · exact hobs
    · exact hobs
  | start => exact hobs
  | addNode a => exact hobs
  | voteResponse t f g => exact hobs
  | appendResponse n t i => exact hobs
  | noop => exact hobs
  | ping t n => exact hobs
  | clientResponse id res => exact hobs

/-- The candidate step never lowers the current term. -/
theorem candidateApply_term (now : Nat) (r : Raft Candidate) (cmd : Command) :
    r.state.current_term ≤ (candidateApply now r cmd).1.currentTerm := by
  cases cmd with
  | tick =>
    simp only [candidateApply]
    split
    · split
      · exact le_refl _
      · exact followerApply_term now
          (candidateToFollower { r with state := { r.state with voted_for := none } }) .timeout
      · exact followerApply_term now
          (candidateToFollower { r with state := { r.state with voted_for := none } }) .timeout
    · exact le_refl _
  | voteResponse t f g =>
    simpa [candidateApply] using le_of_eq (candidateCountVote_term now r f g).symm
  | appendEntries t lid es =>
    simp only [candidateApply]
    split
    · exact le_refl _
    · exact le_refl _
  | heartbeat t lid =>
    simp only [candidateApply]
    split
    · exact le_refl _
    · exact le_refl _
  | voteRequest t cid lt li => exact le_refl _
  | start => exact le_refl _
  | addNode a => exact le_refl _
  | appendResponse n t i => exact le_refl _
  | timeout => exact le_refl _
  | noop => exact le_refl _
  | ping t n => exact le_refl _
  | clientResponse id res => exact le_refl _

/-- The leader step never lowers the current term. -/
theorem leaderApply_term (now : Nat) (r : Raft Leader) (cmd : Command) :
    r.state.current_term ≤ (leaderApply now r cmd).1.currentTerm := by
  unfold leaderApply
  by_cases hb : (cmd.msgTerm.map (fun t => decide (r.state.current_term < t))).getD false = true
  · rw [if_pos hb]
    exact followerApply_term now (leaderToFollower r) cmd
  · rw [if_neg hb]
    cases cmd with
    | tick =>
      show r.state.current_term ≤
        (if r.role.heartbeat_timeout < now - r.role.heartbeat_time then
            (RaftHandle.leader { r with role := { r.role with heartbeat_time := now } },
             Raft.heartbeat { r with role := { r.role with heartbeat_time := now } })
          else (RaftHandle.leader r, [])).1.currentTerm
      split
      · exact le_refl _
      · exact le_refl _
    | appendResponse n t i =>
      simp only [advanceCommit, RaftHandle.currentTerm]
      exact le_refl _
    | voteRequest t cid lt li => exact le_refl _
    | start => exact le_refl _
    | addNode a => exact le_refl _
    | voteResponse t f g => exact le_refl _
    | appendEntries t lid es => exact le_refl _
    | heartbeat t lid => exact le_refl _
    | timeout => exact le_refl _
    | noop => exact le_refl _
    | ping t n => exact le_refl _
    | clientResponse id res => exact le_refl _

/-- C3: on every node, for every command applied in every role, the
current term of the resulting state is greater than or equal to the current
term before the command — `current_term` is monotonically non-decreasing
over the node's lifetime. -/
theorem current_term_monotone (now : Nat) (h : RaftHandle) (cmd : Command) :
    h.currentTerm ≤ (h.apply now cmd).1.currentTerm := by
  cases h with
  | follower r => exact followerApply_term now r cmd
  | candidate r => exact candidateApply_term now r cmd
  | leader r => exact leaderApply_term now r cmd

end Josefine
